import Mathlib

/-!
Verification of the conversation-memory and function-call-result
reconciliation protocol of the litechain weather-bot notebooks.

The embedding models, from the notebook sources:
* `OpenAIChatMessage` / `OpenAIChatDelta` — the message and streamed-delta
  records of `litechain.contrib.llms.open_ai` as used by the notebooks;
* `update_delta_on_memory` — the delta reducer (`memory["history"][-1]` access
  on an empty history is an `IndexError`, modelled as `none`);
* `get_current_weather` and the dispatch `map` lambdas of the plain
  weather-bot notebook and of the error-handling notebook;
* `error_handler` / `function_error_chain` — the error-recovery path;
* the `and_then` orchestration of `weather_bot` and the `reply_function_call`
  pipe of the FastAPI serving notebook.

Python's mutable global `memory` dictionary is made explicit: every function
that touches the history takes the current `List OpenAIChatMessage` and
returns the updated one.
-/

set_option autoImplicit false

/-- A finalized conversation entry (`OpenAIChatMessage(role, content, name)`).
`role` is always set on a stored message; `name` is optional. -/
structure OpenAIChatMessage where
  role : String
  content : String
  name : Option String
deriving Repr, DecidableEq

/-- A streamed model-output fragment (`OpenAIChatDelta(role, name, content)`).
`role` may be unset (`None`) mid-stream. -/
structure OpenAIChatDelta where
  role : Option String
  name : Option String
  content : String
deriving Repr, DecidableEq

/-- The per-conversation history (`memory["history"]` / `Memory.history`). -/
abbrev MemoryStore := List OpenAIChatMessage

/-- `save_message_to_memory` / `Memory.save_message`: append a message. -/
def save_message_to_memory (message : OpenAIChatMessage) (history : MemoryStore) :
    MemoryStore :=
  history ++ [message]

/-- `update_delta_on_memory` / `Memory.update_delta`: if the last stored
message's role differs from the delta's role and the delta's role is not
`None`, append a new message built from the delta; otherwise concatenate the
delta's content onto the last message.  `history[-1]` on an empty history
raises `IndexError`, modelled by `none`. -/
def update_delta_on_memory (delta : OpenAIChatDelta) (history : MemoryStore) :
    Option MemoryStore :=
  match history.getLast? with
  | none => none
  | some last =>
    match delta.role with
    | some r =>
      if last.role ≠ r then
        some (history ++ [⟨r, delta.content, delta.name⟩])
      else
        some (history.dropLast ++ [{ last with content := last.content ++ delta.content }])
    | none =>
      some (history.dropLast ++ [{ last with content := last.content ++ delta.content }])

/-- Fold a stream of deltas into the store in arrival order, as the
`.map(update_delta_on_memory)` step does while the stream is consumed. -/
def foldDeltas (deltas : List OpenAIChatDelta) (history : MemoryStore) :
    Option MemoryStore :=
  match deltas with
  | [] => some history
  | d :: rest =>
    match update_delta_on_memory d history with
    | none => none
    | some h => foldDeltas rest h

/-- Concatenation of the content fragments of a delta stream, in arrival
order. -/
def concatContents (deltas : List OpenAIChatDelta) : String :=
  match deltas with
  | [] => ""
  | d :: rest => d.content ++ concatContents rest

-- Basic string facts needed because `String.append` is concatenation of the
-- underlying character lists.

theorem string_append_empty (s : String) : s ++ "" = s := by
  cases s with
  | mk data =>
    show String.mk (data ++ []) = String.mk data
    rw [List.append_nil]

theorem string_append_assoc (a b c : String) : a ++ b ++ c = a ++ (b ++ c) := by
  cases a with
  | mk da =>
    cases b with
    | mk db =>
      cases c with
      | mk dc =>
        show String.mk (da ++ db ++ dc) = String.mk (da ++ (db ++ dc))
        rw [List.append_assoc]

-- Equational lemmas for the three branches of the reducer.

theorem update_delta_empty (delta : OpenAIChatDelta) :
    update_delta_on_memory delta [] = none := by
  unfold update_delta_on_memory
  simp

theorem update_delta_append (delta : OpenAIChatDelta) (history : MemoryStore)
    (last : OpenAIChatMessage) (r : String)
    (hlast : history.getLast? = some last) (hrole : delta.role = some r)
    (hdiff : last.role ≠ r) :
    update_delta_on_memory delta history =
      some (history ++ [⟨r, delta.content, delta.name⟩]) := by
  unfold update_delta_on_memory
  rw [hlast, hrole]
  simp [hdiff]

theorem update_delta_extend_same_role (delta : OpenAIChatDelta)
    (history : MemoryStore) (last : OpenAIChatMessage) (r : String)
    (hlast : history.getLast? = some last) (hrole : delta.role = some r)
    (heq : last.role = r) :
    update_delta_on_memory delta history =
      some (history.dropLast ++
        [{ last with content := last.content ++ delta.content }]) := by
  unfold update_delta_on_memory
  rw [hlast, hrole]
  simp [heq]

theorem update_delta_extend_no_role (delta : OpenAIChatDelta)
    (history : MemoryStore) (last : OpenAIChatMessage)
    (hlast : history.getLast? = some last) (hrole : delta.role = none) :
    update_delta_on_memory delta history =
      some (history.dropLast ++
        [{ last with content := last.content ++ delta.content }]) := by
  unfold update_delta_on_memory
  rw [hlast, hrole]

theorem update_delta_on_memory_nonempty (delta : OpenAIChatDelta)
    (history : MemoryStore) (hne : history ≠ []) :
    (update_delta_on_memory delta history).isSome := by
  match hlast : history.getLast? with
  | none =>
    exact absurd (List.getLast?_eq_none_iff.mp hlast) hne
  | some last =>
    match hrole : delta.role with
    | none =>
      rw [update_delta_extend_no_role delta history last hlast hrole]
      simp
    | some r =>
      by_cases hr : last.role = r
      · rw [update_delta_extend_same_role delta history last r hlast hrole hr]
        simp
      · rw [update_delta_append delta history last r hlast hrole hr]
        simp

theorem update_delta_result_nonempty (delta : OpenAIChatDelta)
    (history h' : MemoryStore) (h : update_delta_on_memory delta history = some h') :
    h' ≠ [] := by
  match hlast : history.getLast? with
  | none =>
    have : history = [] := List.getLast?_eq_none_iff.mp hlast
    subst this
    rw [update_delta_empty] at h
    exact absurd h (by simp)
  | some last =>
    match hrole : delta.role with
    | none =>
      rw [update_delta_extend_no_role delta history last hlast hrole] at h
      simp only [Option.some.injEq] at h
      subst h
      simp
    | some r =>
      by_cases hr : last.role = r
      · rw [update_delta_extend_same_role delta history last r hlast hrole hr] at h
        simp only [Option.some.injEq] at h
        subst h
        simp
      · rw [update_delta_append delta history last r hlast hrole hr] at h
        simp only [Option.some.injEq] at h
        subst h
        simp

theorem foldDeltas_cons_eq (d : OpenAIChatDelta) (rest : List OpenAIChatDelta)
    (history h' : MemoryStore) (hu : update_delta_on_memory d history = some h') :
    foldDeltas (d :: rest) history = foldDeltas rest h' := by
  simp [foldDeltas, hu]

theorem foldDeltas_nonempty (deltas : List OpenAIChatDelta) :
    ∀ history : MemoryStore, history ≠ [] → (foldDeltas deltas history).isSome := by
  induction deltas with
  | nil => intro history _; simp [foldDeltas]
  | cons d rest ih =>
    intro history hne
    have hs := update_delta_on_memory_nonempty d history hne
    match hu : update_delta_on_memory d history with
    | none => rw [hu] at hs; exact absurd hs (by simp)
    | some h' =>
      have : foldDeltas (d :: rest) history = foldDeltas rest h' := by
        simp [foldDeltas, hu]
      rw [this]
      exact ih h' (update_delta_result_nonempty d history h' hu)

/-- Folding a run of deltas that all carry role `r` onto a store whose last
message already has role `r` extends that message by the concatenated
contents. -/
theorem foldDeltas_extend_run (r : String) (ds : List OpenAIChatDelta)
    (hall : ∀ d ∈ ds, d.role = some r) :
    ∀ (pre : MemoryStore) (m : OpenAIChatMessage), m.role = r →
      foldDeltas ds (pre ++ [m]) =
        some (pre ++ [{ m with content := m.content ++ concatContents ds }]) := by
  induction ds with
  | nil =>
    intro pre m _
    cases m
    simp [foldDeltas, concatContents, string_append_empty]
  | cons d rest ih =>
    intro pre m hm
    have hd : d.role = some r := hall d (by simp)
    have hrest : ∀ x ∈ rest, x.role = some r := fun x hx => hall x (by simp [hx])
    have hlast : (pre ++ [m]).getLast? = some m := by simp
    have hupd := update_delta_extend_same_role d (pre ++ [m]) m r hlast hd hm
    rw [List.dropLast_concat] at hupd
    have hstep := foldDeltas_cons_eq d rest (pre ++ [m])
      (pre ++ [{ m with content := m.content ++ d.content }]) hupd
    rw [hstep, ih hrest pre { m with content := m.content ++ d.content } hm]
    simp [concatContents, string_append_assoc]

-- Sample data used by the concrete witnesses below.

/-- The first user message of the weather-bot notebook transcript. -/
def userMsg : OpenAIChatMessage := ⟨"user", "hi there", none⟩

/-- An assistant-role delta. -/
def assistantDelta : OpenAIChatDelta := ⟨some "assistant", none, "Hello!"⟩

/-- First fragment of a streamed assistant reply. -/
def fragHel : OpenAIChatDelta := ⟨some "assistant", none, "Hel"⟩

/-- Second fragment of a streamed assistant reply. -/
def fragLo : OpenAIChatDelta := ⟨some "assistant", none, "lo!"⟩

/-- C2.  Role-change reduction: when the delta's role is set and differs from
the role of the last message of a non-empty store, `update_delta_on_memory`
appends exactly one new message built from the delta's role, content and
name; the count grows by one and the previously stored messages are kept
unchanged as a prefix. -/
theorem role_change_appends (d : OpenAIChatDelta) (history : MemoryStore)
    (last : OpenAIChatMessage) (r : String)
    (hlast : history.getLast? = some last)
    (hrole : d.role = some r) (hdiff : last.role ≠ r) :
    update_delta_on_memory d history =
      some (history ++ [⟨r, d.content, d.name⟩]) ∧
    (history ++ [(⟨r, d.content, d.name⟩ : OpenAIChatMessage)]).length =
      history.length + 1 ∧
    (history ++ [(⟨r, d.content, d.name⟩ : OpenAIChatMessage)]).take
      history.length = history := by
  refine ⟨update_delta_append d history last r hlast hrole hdiff, by simp, ?_⟩
  rw [List.take_left]

/-- Witness for C2 at a concrete store and delta. -/
theorem role_change_appends_witness :
    update_delta_on_memory assistantDelta [userMsg] =
      some ([userMsg] ++ [⟨"assistant", "Hello!", none⟩]) ∧
    ([userMsg] ++ [(⟨"assistant", "Hello!", none⟩ : OpenAIChatMessage)]).length =
      [userMsg].length + 1 ∧
    ([userMsg] ++ [(⟨"assistant", "Hello!", none⟩ : OpenAIChatMessage)]).take
      [userMsg].length = [userMsg] :=
  role_change_appends assistantDelta [userMsg] userMsg "assistant" rfl rfl
    (by decide)

/-- C3.  Same-role concatenation: a non-empty run of deltas sharing one role,
folded in arrival order into a store whose last message has a different role,
produces exactly one new message whose content is the concatenation of all
the fragments in arrival order, and the store grows by exactly one message
over the whole run. -/
theorem same_role_concatenation (d : OpenAIChatDelta)
    (rest : List OpenAIChatDelta) (r : String) (history : MemoryStore)
    (last : OpenAIChatMessage) (hd : d.role = some r)
    (hrest : ∀ x ∈ rest, x.role = some r)
    (hlast : history.getLast? = some last) (hdiff : last.role ≠ r) :
    foldDeltas (d :: rest) history =
      some (history ++ [⟨r, concatContents (d :: rest), d.name⟩]) ∧
    (history ++
      [(⟨r, concatContents (d :: rest), d.name⟩ : OpenAIChatMessage)]).length =
      history.length + 1 := by
  refine ⟨?_, by simp⟩
  have hupd := update_delta_append d history last r hlast hd hdiff
  have hstep := foldDeltas_cons_eq d rest history
    (history ++ [⟨r, d.content, d.name⟩]) hupd
  rw [hstep, foldDeltas_extend_run r rest hrest history ⟨r, d.content, d.name⟩ rfl]
  simp [concatContents]

/-- Witness for C3: two assistant fragments fold into one message "Hello!". -/
theorem same_role_concatenation_witness :
    foldDeltas [fragHel, fragLo] [userMsg] =
      some ([userMsg] ++
        [⟨"assistant", concatContents [fragHel, fragLo], fragHel.name⟩]) ∧
    concatContents [fragHel, fragLo] = "Hello!" :=
  ⟨(same_role_concatenation fragHel [fragLo] "assistant" [userMsg] userMsg rfl
      (fun x hx => by rw [List.mem_singleton.mp hx]; rfl) rfl (by decide)).1,
    rfl⟩

/-- C8.  Append-or-extend invariant: a reduce step on a non-empty store
succeeds and either appends one message at the end or extends the last
message's content by a suffix; the messages before the last are preserved (the
old store minus its last element is a prefix of the new store) and the store
never shrinks. -/
theorem append_or_extend (d : OpenAIChatDelta) (history : MemoryStore)
    (hne : history ≠ []) :
    ∃ h', update_delta_on_memory d history = some h' ∧
      history.length ≤ h'.length ∧
      (∃ t, history.dropLast ++ t = h') ∧
      ((∃ m, h' = history ++ [m]) ∨
        (∃ last, history.getLast? = some last ∧
          h' = history.dropLast ++
            [{ last with content := last.content ++ d.content }])) := by
  have hpos : 0 < history.length := List.length_pos.mpr hne
  have hlast : history.getLast? = some (history.getLast hne) :=
    List.getLast?_eq_getLast history hne
  have hsplit : history.dropLast ++ [history.getLast hne] = history :=
    List.dropLast_append_getLast hne
  match hrole : d.role with
  | none =>
    refine ⟨_, update_delta_extend_no_role d history (history.getLast hne)
      hlast hrole, ?_, ⟨_, rfl⟩, Or.inr ⟨history.getLast hne, hlast, rfl⟩⟩
    simp only [List.length_append, List.length_dropLast, List.length_singleton]
    omega
  | some r =>
    by_cases hr : (history.getLast hne).role = r
    · refine ⟨_, update_delta_extend_same_role d history (history.getLast hne) r
        hlast hrole hr, ?_, ⟨_, rfl⟩, Or.inr ⟨history.getLast hne, hlast, rfl⟩⟩
      simp only [List.length_append, List.length_dropLast, List.length_singleton]
      omega
    · refine ⟨_, update_delta_append d history (history.getLast hne) r
        hlast hrole hr, by simp, ?_, Or.inl ⟨_, rfl⟩⟩
      refine ⟨[history.getLast hne] ++ [⟨r, d.content, d.name⟩], ?_⟩
      rw [← List.append_assoc, hsplit]

/-- Witness for C8 at a concrete store and delta. -/
theorem append_or_extend_witness :
    ∃ h', update_delta_on_memory assistantDelta [userMsg] = some h' ∧
      [userMsg].length ≤ h'.length ∧
      (∃ t, [userMsg].dropLast ++ t = h') ∧
      ((∃ m, h' = [userMsg] ++ [m]) ∨
        (∃ last, [userMsg].getLast? = some last ∧
          h' = [userMsg].dropLast ++
            [{ last with
                content := last.content ++ assistantDelta.content }])) :=
  append_or_extend assistantDelta [userMsg] (by decide)

/-- C10.  Empty-store reduction is an error: folding any delta into the empty
store fails (no first message is ever created by the reducer), while folding
into any non-empty store — such as one seeded with the saved user message —
always succeeds, so the error branch is unreachable after seeding. -/
theorem empty_store_reduce :
    (∀ d : OpenAIChatDelta, update_delta_on_memory d [] = none) ∧
    (∀ (d : OpenAIChatDelta) (history : MemoryStore), history ≠ [] →
      (update_delta_on_memory d history).isSome) :=
  ⟨fun d => update_delta_empty d,
    fun d history hne => update_delta_on_memory_nonempty d history hne⟩

/-- Witness for C10: a role-bearing delta still fails on the empty store and
succeeds once the user message has been saved. -/
theorem empty_store_reduce_witness :
    update_delta_on_memory assistantDelta [] = none ∧
    (update_delta_on_memory assistantDelta [userMsg]).isSome :=
  ⟨empty_store_reduce.1 assistantDelta,
    empty_store_reduce.2 assistantDelta [userMsg] (by decide)⟩

-- Python's substring test (`needle in hay`), used by `error_handler`.

/-- `charListIsPrefixOf n h` is true when `n` is an initial segment of `h`. -/
def charListIsPrefixOf : List Char → List Char → Bool
  | [], _ => true
  | _ :: _, [] => false
  | a :: as, b :: bs => a == b && charListIsPrefixOf as bs

/-- `charListContains n h` is true when `n` occurs contiguously in `h`. -/
def charListContains (needle : List Char) : List Char → Bool
  | [] => needle.isEmpty
  | c :: rest => charListIsPrefixOf needle (c :: rest) || charListContains needle rest

/-- Python's `needle in hay` on strings. -/
def strContains (hay needle : String) : Bool :=
  charListContains needle.data hay.data

-- A model of the parts of Python's `json` module the notebooks use.

/-- Characters Python's json parser skips as whitespace. -/
def isJsonWs (c : Char) : Bool :=
  c == ' ' || c == '\n' || c == '\t' || c == '\r'

/-- Drop leading JSON whitespace. -/
def skipWs (cs : List Char) : List Char := cs.dropWhile isJsonWs

/-- Parse a JSON string literal (no escape sequences occur in the notebooks'
argument objects). -/
def parseStringLit : List Char → Option (String × List Char)
  | '"' :: rest =>
    match rest.dropWhile (fun c => c != '"') with
    | '"' :: rest2 => some (String.mk (rest.takeWhile (fun c => c != '"')), rest2)
    | _ => none
  | _ => none

/-- Parse the members of a JSON object of string values, positioned after the
opening brace with at least one member ahead; consumes the closing brace. -/
def parseMembers : Nat → List Char → Option (List (String × String) × List Char)
  | 0, _ => none
  | fuel + 1, cs =>
    match parseStringLit (skipWs cs) with
    | none => none
    | some (key, cs1) =>
      match skipWs cs1 with
      | ':' :: cs2 =>
        match parseStringLit (skipWs cs2) with
        | none => none
        | some (val, cs3) =>
          match skipWs cs3 with
          | ',' :: cs4 =>
            match parseMembers fuel cs4 with
            | none => none
            | some (restPairs, cs5) => some ((key, val) :: restPairs, cs5)
          | '\x7d' :: cs4 => some ([(key, val)], cs4)
          | _ => none
      | _ => none

/-- Modelled from Python's `json` module (an external collaborator of the
notebooks): the stringified form of a `json.JSONDecodeError`.  CPython
formats it as `<reason>: line <l> column <c> (char <n>)`; the text carries
positions only, never the dispatched function's name.  One representative
instance stands for all of them. -/
def json_decode_error_message : String := "Expecting value: line 1 column 1 (char 0)"

/-- Modelled from Python's `json.loads`, restricted to the only shapes the
notebooks feed it: a flat JSON object whose values are strings.  Returns the
key/value pairs in document order, or the stringified `JSONDecodeError`. -/
def json_loads_object (s : String) : Except String (List (String × String)) :=
  match skipWs s.data with
  | '\x7b' :: cs =>
    match skipWs cs with
    | '\x7d' :: cs2 =>
      if (skipWs cs2).isEmpty then .ok [] else .error json_decode_error_message
    | _ =>
      match parseMembers (s.length + 1) cs with
      | some (pairs, rest) =>
        if (skipWs rest).isEmpty then .ok pairs
        else .error json_decode_error_message
      | none => .error json_decode_error_message
  | _ => .error json_decode_error_message

-- The weather tool and the dispatch `map` lambdas.

/-- `json.dumps` of the weather-result dictionary with CPython's default
separators (", " and ": "); the notebook values need no character escaping. -/
def json_dumps_weather (location forecast temperature : String) : String :=
  "\x7b\"location\": \"" ++ location ++ "\", \"forecast\": \"" ++ forecast ++
    "\", \"temperature\": \"" ++ temperature ++ "\"\x7d"

/-- `get_current_weather(location, format="celsius")`: a function-role delta
carrying the serialized result dictionary. -/
def get_current_weather (location : String) (format : String) : OpenAIChatDelta :=
  ⟨some "function", some "get_current_weather",
    json_dumps_weather location "sunny"
      (if format = "celsius" then "25 C" else "77 F")⟩

/-- Python's `TypeError` text when `location` is absent from the keyword
arguments, exactly as printed in the error-handling notebook's transcript. -/
def missing_location_error : String :=
  "get_current_weather() missing 1 required positional argument: 'location'"

/-- First value bound to `key` in the parsed argument object. -/
def lookupArg (args : List (String × String)) (key : String) : Option String :=
  (args.find? (fun p => p.1 == key)).map (fun p => p.2)

/-- Keyword-argument binding of `get_current_weather(**args)`: `location` is
required, `format` defaults to `"celsius"`, any other key raises a
`TypeError`. -/
def bind_get_current_weather (args : List (String × String)) :
    Except String (String × String) :=
  match args.find? (fun p => p.1 != "location" && p.1 != "format") with
  | some p =>
    .error ("get_current_weather() got an unexpected keyword argument '"
      ++ p.1 ++ "'")
  | none =>
    match lookupArg args "location" with
    | some loc => .ok (loc, (lookupArg args "format").getD "celsius")
    | none => .error missing_location_error

/-- `get_current_weather(**json.loads(content))`: parse, bind, call. -/
def dispatch_get_current_weather (content : String) :
    Except String OpenAIChatDelta :=
  match json_loads_object content with
  | .error e => .error e
  | .ok args =>
    match bind_get_current_weather args with
    | .error e => .error e
    | .ok (loc, fmt) => .ok (get_current_weather loc fmt)

/-- Trigger condition shared by the dispatch `map` lambdas. -/
def isWeatherCall (delta : OpenAIChatDelta) : Bool :=
  delta.role == some "function" && delta.name == some "get_current_weather"

/-- The dispatch `map` lambda of the plain weather-bot notebook (and of the
schema-extraction notebook): call the function when the model produced a
function call, else pass the delta through.  Its body never references
`memory`. -/
def maybe_dispatch (delta : OpenAIChatDelta) : Except String OpenAIChatDelta :=
  if isWeatherCall delta then dispatch_get_current_weather delta.content
  else .ok delta

/-- The plain dispatch step with the memory made explicit: the lambda touches
no memory, so the store passes through unchanged. -/
def maybe_dispatch_v0 (delta : OpenAIChatDelta) (history : MemoryStore) :
    MemoryStore × Except String OpenAIChatDelta :=
  (history, maybe_dispatch delta)

/-- The dispatch `map` lambda of the error-handling notebook: on a function
call it first saves a function-role message carrying the raw argument string
(`save_message_to_memory(...) and get_current_weather(**json.loads(...))`),
then dispatches; the save precedes the parse, so it persists even when the
dispatch fails. -/
def dispatch_and_save (delta : OpenAIChatDelta) (history : MemoryStore) :
    MemoryStore × Except String OpenAIChatDelta :=
  if isWeatherCall delta then
    (save_message_to_memory
        ⟨"function", delta.content, some "get_current_weather"⟩ history,
      dispatch_get_current_weather delta.content)
  else (history, .ok delta)

/-- The Amsterdam argument object emitted by the model in the weather turn. -/
def amsterdamArgs : String := "\x7b\"location\": \"Amsterdam\"\x7d"

/-- The function-call delta of the Amsterdam weather turn. -/
def weatherCallDelta : OpenAIChatDelta :=
  ⟨some "function", some "get_current_weather", amsterdamArgs⟩

/-- C4 counterexample: in the error-handling notebook the dispatch map step
is not side-effect-free on the store — on a triggering delta it appends the
function-call message before dispatching. -/
theorem dispatch_purity_counterexample :
    (dispatch_and_save weatherCallDelta [userMsg]).1 ≠ [userMsg] := by
  decide

/-- C4 (amended).  Dispatch is deterministic in both notebooks; the plain
weather-bot dispatch map leaves the store untouched for every delta, and the
error-handling notebook's dispatch map leaves the store untouched exactly
when dispatch does not trigger, appending the single function-call message
(role `function`, content = raw arguments) when it does. -/
theorem dispatch_purity_amended :
    (∀ d₁ d₂ : OpenAIChatDelta, d₁ = d₂ → maybe_dispatch d₁ = maybe_dispatch d₂) ∧
    (∀ (d : OpenAIChatDelta) (h : MemoryStore), (maybe_dispatch_v0 d h).1 = h) ∧
    (∀ (d : OpenAIChatDelta) (h : MemoryStore), isWeatherCall d = false →
      (dispatch_and_save d h).1 = h) ∧
    (∀ (d : OpenAIChatDelta) (h : MemoryStore), isWeatherCall d = true →
      (dispatch_and_save d h).1 =
        h ++ [⟨"function", d.content, some "get_current_weather"⟩]) := by
  refine ⟨fun d₁ d₂ hd => by rw [hd], fun d h => rfl, ?_, ?_⟩
  · intro d h hfalse
    simp [dispatch_and_save, hfalse]
  · intro d h htrue
    simp [dispatch_and_save, save_message_to_memory, htrue]

/-- Witness for C4's amended statement at concrete deltas and stores. -/
theorem dispatch_purity_amended_witness :
    maybe_dispatch assistantDelta = maybe_dispatch assistantDelta ∧
    (maybe_dispatch_v0 weatherCallDelta [userMsg]).1 = [userMsg] ∧
    (dispatch_and_save assistantDelta [userMsg]).1 = [userMsg] ∧
    (dispatch_and_save weatherCallDelta [userMsg]).1 =
      [userMsg] ++ [⟨"function", amsterdamArgs, some "get_current_weather"⟩] :=
  ⟨dispatch_purity_amended.1 assistantDelta assistantDelta rfl,
    dispatch_purity_amended.2.1 weatherCallDelta [userMsg],
    dispatch_purity_amended.2.2.1 assistantDelta [userMsg] rfl,
    dispatch_purity_amended.2.2.2 weatherCallDelta [userMsg] rfl⟩

-- The turn orchestration of `weather_bot`.

/-- Result of one orchestrated turn, with the implicit effects made explicit:
the yielded outputs, the final store, how many model calls beyond the first
were issued, the contexts handed to `function_reply_chain` and to
`function_error_chain` when they were called, and the error re-raised to the
caller if any. -/
structure TurnResult where
  outputs : List OpenAIChatDelta
  store : MemoryStore
  followUpCalls : Nat
  replyContext : Option MemoryStore
  recoveryContext : Option MemoryStore
  raised : Option String
deriving Repr, DecidableEq

/-- The Python `IndexError` text for `list[-1]` on an empty list. -/
def index_error_message : String := "IndexError: list index out of range"

/-- Consume the first model stream of the plain weather-bot: each chunk goes
through the dispatch map, then is folded into the store
(`.map(dispatch).map(update_delta_on_memory)`), strictly in arrival order.
Returns the store and the produced outputs, or the raised error together
with the store at that point. -/
def processStream_v0 : List OpenAIChatDelta → MemoryStore → List OpenAIChatDelta →
    Except (String × MemoryStore) (MemoryStore × List OpenAIChatDelta)
  | [], history, acc => .ok (history, acc)
  | d :: rest, history, acc =>
    match maybe_dispatch d with
    | .error e => .error (e, history)
    | .ok d' =>
      match update_delta_on_memory d' history with
      | none => .error (index_error_message, history)
      | some h => processStream_v0 rest h (acc ++ [d'])

/-- Consume the first model stream of the error-handling weather-bot: the
dispatch map also saves the raw function call to memory before dispatching. -/
def processStream_v1 : List OpenAIChatDelta → MemoryStore → List OpenAIChatDelta →
    Except (String × MemoryStore) (MemoryStore × List OpenAIChatDelta)
  | [], history, acc => .ok (history, acc)
  | d :: rest, history, acc =>
    match dispatch_and_save d history with
    | (h1, .error e) => .error (e, h1)
    | (h1, .ok d') =>
      match update_delta_on_memory d' h1 with
      | none => .error (index_error_message, h1)
      | some h2 => processStream_v1 rest h2 (acc ++ [d'])

/-- The `and_then` stage of `weather_bot`: inspect `list(outputs)[-1]` (an
`IndexError` when empty); when its role is `function`, invoke
`function_reply_chain` once — a single model call whose context is the
current store and whose chunks (`replyStream`) are folded and yielded as the
turn's output — otherwise re-yield the outputs unchanged. -/
def finish_turn (outs : List OpenAIChatDelta) (store : MemoryStore)
    (replyStream : List OpenAIChatDelta) (calls : Nat)
    (recoveryCtx : Option MemoryStore) : TurnResult :=
  match outs.getLast? with
  | none => ⟨[], store, calls, none, recoveryCtx, some index_error_message⟩
  | some last =>
    if last.role == some "function" then
      match foldDeltas replyStream store with
      | none =>
        ⟨[], store, calls + 1, some store, recoveryCtx, some index_error_message⟩
      | some h => ⟨replyStream, h, calls + 1, some store, recoveryCtx, none⟩
    else ⟨outs, store, calls, none, recoveryCtx, none⟩

/-- One turn of the plain weather-bot (`weather_bot(user_input)`): save the
user message, stream the first model call through dispatch and memory
folding, then run the `and_then` stage.  `firstStream` and `replyStream`
stand for the chunk sequences the external model collaborator yields for the
first and (if issued) follow-up call. -/
def run_turn_v0 (firstStream replyStream : List OpenAIChatDelta)
    (history : MemoryStore) (userInput : String) : TurnResult :=
  let h1 := save_message_to_memory ⟨"user", userInput, none⟩ history
  match processStream_v0 firstStream h1 [] with
  | .error (e, h2) => ⟨[], h2, 0, none, none, some e⟩
  | .ok (h2, outs) => finish_turn outs h2 replyStream 0 none

/-- Outcome of `error_handler`. -/
inductive HandlerOutcome where
  | recovered (store : MemoryStore)
  | reraised (err : String)
deriving Repr, DecidableEq

/-- `error_handler(err)`: when the stringified error mentions
`get_current_weather`, trigger `function_error_chain`, whose message lambda
appends exactly one user-role message carrying the stringified error
(`save_message_to_memory(OpenAIChatMessage(role="user", content=str(err)))`);
otherwise re-raise the error unchanged, touching nothing. -/
def error_handler (err : String) (history : MemoryStore) : HandlerOutcome :=
  if strContains err "get_current_weather" then
    .recovered (save_message_to_memory ⟨"user", err, none⟩ history)
  else .reraised err

/-- One turn of the error-handling weather-bot: like `run_turn_v0`, but the
dispatch map also saves the raw call, and a raised error goes through
`error_handler` (`.on_error(error_handler)`); on recovery the
`FunctionErrorChain` model call's chunks (`errorStream`) are folded by the
trailing `.map(update_delta_on_memory)` and flow into the `and_then` stage. -/
def run_turn_v1 (firstStream errorStream replyStream : List OpenAIChatDelta)
    (history : MemoryStore) (userInput : String) : TurnResult :=
  let h1 := save_message_to_memory ⟨"user", userInput, none⟩ history
  match processStream_v1 firstStream h1 [] with
  | .ok (h2, outs) => finish_turn outs h2 replyStream 0 none
  | .error (e, h2) =>
    match error_handler e h2 with
    | .reraised e2 => ⟨[], h2, 0, none, none, some e2⟩
    | .recovered h3 =>
      match foldDeltas errorStream h3 with
      | none => ⟨[], h3, 1, none, some h3, some index_error_message⟩
      | some h4 => finish_turn errorStream h4 replyStream 1 (some h3)

/-- The FastAPI notebook's `reply_function_call` pipe: every function-role
output triggers a `function_reply_chain` call whose chunks replace it in the
yielded stream; any other output is re-yielded.  Returns the yielded outputs
and the number of follow-up calls issued. -/
def reply_function_call (stream replyStream : List OpenAIChatDelta) :
    List OpenAIChatDelta × Nat :=
  match stream with
  | [] => ([], 0)
  | d :: rest =>
    let p := reply_function_call rest replyStream
    if d.role == some "function" then (replyStream ++ p.1, p.2 + 1)
    else (d :: p.1, p.2)

/-- Events of one pass of `reply_function_call`, in temporal order: consuming
a first-stream chunk, or starting the follow-up `function_reply_chain` call. -/
inductive TurnEvent where
  | chunk (d : OpenAIChatDelta)
  | followUpCall
deriving Repr, DecidableEq

/-- The temporal trace of `reply_function_call`: the follow-up call starts
immediately after the function-role chunk that triggered it, before the
remaining first-stream chunks are consumed. -/
def reply_function_call_events : List OpenAIChatDelta → List TurnEvent
  | [] => []
  | d :: rest =>
    if d.role == some "function" then
      TurnEvent.chunk d :: TurnEvent.followUpCall :: reply_function_call_events rest
    else TurnEvent.chunk d :: reply_function_call_events rest

/-- True when no first-stream chunk is consumed after a follow-up call has
started — i.e. follow-ups happen only once the first stream is drained. -/
def followUpAfterDrain : List TurnEvent → Bool
  | [] => true
  | TurnEvent.chunk _ :: rest => followUpAfterDrain rest
  | TurnEvent.followUpCall :: rest =>
    rest.all (fun e => e == TurnEvent.followUpCall)

-- Concrete data of the notebook transcripts.

/-- The user input of the Amsterdam weather turn. -/
def amsterdamUserInput : String := "is it hot today in Amsterdam?"

/-- `json.dumps` of the weather result for Amsterdam, as printed in the
notebook memory dump. -/
def amsterdamResultContent : String :=
  "\x7b\"location\": \"Amsterdam\", \"forecast\": \"sunny\", \"temperature\": \"25 C\"\x7d"

/-- The dispatch result delta for the Amsterdam call. -/
def resultDelta : OpenAIChatDelta :=
  ⟨some "function", some "get_current_weather", amsterdamResultContent⟩

/-- The assistant follow-up reply of the Amsterdam weather turn. -/
def amsterdamReply : OpenAIChatDelta :=
  ⟨some "assistant", none,
    "Yes, it is hot today in Amsterdam. The current temperature is 25°C and it is sunny."⟩

/-- The function call with empty arguments from the error-handling notebook. -/
def emptyArgsCall : OpenAIChatDelta :=
  ⟨some "function", some "get_current_weather", "\x7b\x7d"⟩

/-- A function call whose accumulated content is not valid JSON. -/
def badJsonCall : OpenAIChatDelta :=
  ⟨some "function", some "get_current_weather", "not json"⟩

/-- The assistant clarification reply of the error-recovery turn. -/
def clarifyDelta : OpenAIChatDelta :=
  ⟨some "assistant", none,
    "Could you please provide me with your location?"⟩

-- Helper lemmas about the orchestration pipeline.

theorem processStream_v0_ok_nonempty :
    ∀ (ds : List OpenAIChatDelta) (h : MemoryStore) (acc : List OpenAIChatDelta)
      (h2 : MemoryStore) (outs : List OpenAIChatDelta), h ≠ [] →
      processStream_v0 ds h acc = .ok (h2, outs) → h2 ≠ [] := by
  intro ds
  induction ds with
  | nil =>
    intro h acc h2 outs hne hok
    simp only [processStream_v0, Except.ok.injEq, Prod.mk.injEq] at hok
    exact hok.1 ▸ hne
  | cons d rest ih =>
    intro h acc h2 outs hne hok
    match hmd : maybe_dispatch d with
    | .error e => simp [processStream_v0, hmd] at hok
    | .ok d' =>
      match hup : update_delta_on_memory d' h with
      | none => simp [processStream_v0, hmd, hup] at hok
      | some h1 =>
        simp only [processStream_v0, hmd, hup] at hok
        exact ih h1 (acc ++ [d']) h2 outs (update_delta_result_nonempty d' h h1 hup) hok

theorem finish_turn_function (outs : List OpenAIChatDelta) (store : MemoryStore)
    (replyStream : List OpenAIChatDelta) (calls : Nat) (rctx : Option MemoryStore)
    (last : OpenAIChatDelta) (h3 : MemoryStore)
    (hlast : outs.getLast? = some last) (hrole : last.role = some "function")
    (hfold : foldDeltas replyStream store = some h3) :
    finish_turn outs store replyStream calls rctx =
      ⟨replyStream, h3, calls + 1, some store, rctx, none⟩ := by
  unfold finish_turn
  rw [hlast]
  simp [hrole, hfold]

theorem finish_turn_other (outs : List OpenAIChatDelta) (store : MemoryStore)
    (replyStream : List OpenAIChatDelta) (calls : Nat) (rctx : Option MemoryStore)
    (last : OpenAIChatDelta)
    (hlast : outs.getLast? = some last) (hrole : last.role ≠ some "function") :
    finish_turn outs store replyStream calls rctx =
      ⟨outs, store, calls, none, rctx, none⟩ := by
  unfold finish_turn
  rw [hlast]
  have hb : (last.role == some "function") = false := beq_eq_false_iff_ne.mpr hrole
  simp [hb]

theorem finish_turn_reply_context (outs : List OpenAIChatDelta) (store : MemoryStore)
    (replyStream : List OpenAIChatDelta) (calls : Nat) (rctx : Option MemoryStore)
    (last : OpenAIChatDelta)
    (hlast : outs.getLast? = some last) (hrole : last.role = some "function") :
    (finish_turn outs store replyStream calls rctx).replyContext = some store := by
  unfold finish_turn
  rw [hlast]
  cases hfold : foldDeltas replyStream store <;> simp [hrole, hfold]

theorem reply_function_call_count (stream replyStream : List OpenAIChatDelta) :
    (reply_function_call stream replyStream).2 =
      (stream.filter (fun d => d.role == some "function")).length := by
  induction stream with
  | nil => rfl
  | cons d rest ih =>
    cases hd : (d.role == some "function") <;>
      simp [reply_function_call, List.filter_cons, hd, ih]

theorem processStream_v0_append (xs ys : List OpenAIChatDelta) :
    ∀ (h : MemoryStore) (acc : List OpenAIChatDelta),
      processStream_v0 (xs ++ ys) h acc =
        match processStream_v0 xs h acc with
        | .error p => .error p
        | .ok (h2, acc2) => processStream_v0 ys h2 acc2 := by
  induction xs with
  | nil => intro h acc; rfl
  | cons d rest ih =>
    intro h acc
    show processStream_v0 (d :: (rest ++ ys)) h acc = _
    match hmd : maybe_dispatch d with
    | .error e => simp [processStream_v0, hmd]
    | .ok d' =>
      match hup : update_delta_on_memory d' h with
      | none => simp [processStream_v0, hmd, hup]
      | some h1 =>
        simp only [processStream_v0, hmd, hup]
        exact ih h1 (acc ++ [d'])

theorem reply_events_drained (stream : List OpenAIChatDelta)
    (hmid : ∀ d ∈ stream.dropLast, d.role ≠ some "function") :
    followUpAfterDrain (reply_function_call_events stream) = true := by
  induction stream with
  | nil => rfl
  | cons d rest ih =>
    cases rest with
    | nil =>
      cases hd : (d.role == some "function") <;>
        simp [reply_function_call_events, followUpAfterDrain, hd, List.all_nil]
    | cons r rs =>
      have hd : d.role ≠ some "function" := hmid d (List.mem_cons_self _ _)
      have hd2 : (d.role == some "function") = false := beq_eq_false_iff_ne.mpr hd
      have hrest : ∀ x ∈ (r :: rs).dropLast, x.role ≠ some "function" :=
        fun x hx => hmid x (List.mem_cons_of_mem d hx)
      have hev : reply_function_call_events (d :: r :: rs) =
          TurnEvent.chunk d :: reply_function_call_events (r :: rs) := by
        simp [reply_function_call_events, hd2]
      rw [hev,
        show followUpAfterDrain
            (TurnEvent.chunk d :: reply_function_call_events (r :: rs)) =
          followUpAfterDrain (reply_function_call_events (r :: rs)) from rfl]
      exact ih hrest

/-- C1 counterexample: the FastAPI notebook's `reply_function_call` issues a
follow-up call per function-role output, not per last output — on a stream
whose last unit is an assistant delta but which contains a mid-stream
function-role unit, one follow-up call occurs although the last role is not
`function`, so the claim's "zero follow-up calls for every other last role"
fails at this input. -/
theorem followup_trigger_counterexample :
    [weatherCallDelta, assistantDelta].getLast? = some assistantDelta ∧
    assistantDelta.role ≠ some "function" ∧
    (reply_function_call [weatherCallDelta, assistantDelta] [clarifyDelta]).2 = 1 :=
  ⟨rfl, by decide, rfl⟩

/-- C1 (amended).  For the `and_then` orchestrators of the weather-bot and
error-handling notebooks the claim holds as stated: when the last produced
output of the first stream has role `function`, exactly one follow-up model
call is issued with the updated store as context and its chunks become the
turn's output; for any other last role, zero follow-up calls occur and the
produced outputs are yielded unchanged.  The FastAPI variant instead issues
one follow-up call per function-role output in the stream, so it agrees with
the claim only when function-role outputs occur exactly at the last
position. -/
theorem followup_trigger_amended (firstStream replyStream : List OpenAIChatDelta)
    (history : MemoryStore) (userInput : String) (h2 : MemoryStore)
    (outs : List OpenAIChatDelta) (last : OpenAIChatDelta)
    (hproc : processStream_v0 firstStream
      (save_message_to_memory ⟨"user", userInput, none⟩ history) [] = .ok (h2, outs))
    (hlast : outs.getLast? = some last) :
    (last.role = some "function" →
      ∃ h3, foldDeltas replyStream h2 = some h3 ∧
        run_turn_v0 firstStream replyStream history userInput =
          ⟨replyStream, h3, 1, some h2, none, none⟩) ∧
    (last.role ≠ some "function" →
      run_turn_v0 firstStream replyStream history userInput =
        ⟨outs, h2, 0, none, none, none⟩) ∧
    (∀ stream reply : List OpenAIChatDelta,
      (reply_function_call stream reply).2 =
        (stream.filter (fun d => d.role == some "function")).length) := by
  have hrun : run_turn_v0 firstStream replyStream history userInput =
      finish_turn outs h2 replyStream 0 none := by
    simp only [run_turn_v0, hproc]
  have h2ne : h2 ≠ [] :=
    processStream_v0_ok_nonempty firstStream _ [] h2 outs
      (by simp [save_message_to_memory]) hproc
  refine ⟨?_, ?_, fun stream reply => reply_function_call_count stream reply⟩
  · intro hrole
    have hsome := foldDeltas_nonempty replyStream h2 h2ne
    match hfold : foldDeltas replyStream h2 with
    | none => rw [hfold] at hsome; exact absurd hsome (by simp)
    | some h3 =>
      exact ⟨h3, rfl, by
        rw [hrun, finish_turn_function outs h2 replyStream 0 none last h3
          hlast hrole hfold]⟩
  · intro hrole
    rw [hrun, finish_turn_other outs h2 replyStream 0 none last hlast hrole]

/-- Witness for C1's amended statement: the Amsterdam turn triggers exactly
one follow-up over the updated store, and the per-output count of the FastAPI
variant at a function-free stream is zero. -/
theorem followup_trigger_amended_witness :
    (∃ h3, foldDeltas [amsterdamReply]
        [⟨"user", amsterdamUserInput, none⟩,
          ⟨"function", amsterdamResultContent, some "get_current_weather"⟩] =
          some h3 ∧
      run_turn_v0 [weatherCallDelta] [amsterdamReply] [] amsterdamUserInput =
        ⟨[amsterdamReply], h3, 1,
          some [⟨"user", amsterdamUserInput, none⟩,
            ⟨"function", amsterdamResultContent, some "get_current_weather"⟩],
          none, none⟩) ∧
    (reply_function_call [assistantDelta] [clarifyDelta]).2 =
      ([assistantDelta].filter (fun d => d.role == some "function")).length :=
  ⟨(followup_trigger_amended [weatherCallDelta] [amsterdamReply] [] amsterdamUserInput
      [⟨"user", amsterdamUserInput, none⟩,
        ⟨"function", amsterdamResultContent, some "get_current_weather"⟩]
      [resultDelta] resultDelta rfl rfl).1 rfl,
    (followup_trigger_amended [weatherCallDelta] [amsterdamReply] [] amsterdamUserInput
      [⟨"user", amsterdamUserInput, none⟩,
        ⟨"function", amsterdamResultContent, some "get_current_weather"⟩]
      [resultDelta] resultDelta rfl rfl).2.2 [assistantDelta] [clarifyDelta]⟩

/-- C7 counterexample: in the FastAPI notebook's `reply_function_call`, the
follow-up call starts as soon as a function-role output is consumed — on a
stream with a later chunk still pending, the follow-up's chunks are yielded
before that remaining first-stream chunk, so the follow-up overlaps the
first stream. -/
theorem followup_after_drain_counterexample :
    followUpAfterDrain
      (reply_function_call_events [weatherCallDelta, assistantDelta]) = false ∧
    (reply_function_call [weatherCallDelta, assistantDelta] [clarifyDelta]).1 =
      [clarifyDelta] ++ [assistantDelta] :=
  ⟨rfl, rfl⟩

/-- C7 (amended).  Folding is strictly sequential in delta-arrival order
(processing a concatenated stream equals processing the first part and
continuing on its resulting store), and in the `and_then` orchestrator the
follow-up call's context is the store obtained after the entire first stream
has been folded — the follow-up never starts before the first stream is
drained.  In the FastAPI variant this drain guarantee holds only when
function-role outputs occur at the last position; a mid-stream function-role
output starts the follow-up while first-stream chunks remain. -/
theorem followup_after_drain_amended :
    (∀ (xs ys : List OpenAIChatDelta) (h : MemoryStore)
       (acc : List OpenAIChatDelta),
      processStream_v0 (xs ++ ys) h acc =
        match processStream_v0 xs h acc with
        | .error p => .error p
        | .ok (h2, acc2) => processStream_v0 ys h2 acc2) ∧
    (∀ (firstStream replyStream : List OpenAIChatDelta) (history : MemoryStore)
       (userInput : String) (h2 : MemoryStore) (outs : List OpenAIChatDelta)
       (last : OpenAIChatDelta),
      processStream_v0 firstStream
        (save_message_to_memory ⟨"user", userInput, none⟩ history) [] =
          .ok (h2, outs) →
      outs.getLast? = some last → last.role = some "function" →
      (run_turn_v0 firstStream replyStream history userInput).replyContext =
        some h2) ∧
    (∀ stream : List OpenAIChatDelta,
      (∀ d ∈ stream.dropLast, d.role ≠ some "function") →
      followUpAfterDrain (reply_function_call_events stream) = true) := by
  refine ⟨fun xs ys h acc => processStream_v0_append xs ys h acc, ?_,
    fun stream hmid => reply_events_drained stream hmid⟩
  intro firstStream replyStream history userInput h2 outs last hproc hlast hrole
  have hrun : run_turn_v0 firstStream replyStream history userInput =
      finish_turn outs h2 replyStream 0 none := by
    simp only [run_turn_v0, hproc]
  rw [hrun]
  exact finish_turn_reply_context outs h2 replyStream 0 none last hlast hrole

/-- Witness for C7's amended statement at concrete streams. -/
theorem followup_after_drain_amended_witness :
    (processStream_v0 ([weatherCallDelta] ++ [assistantDelta]) [userMsg] [] =
      match processStream_v0 [weatherCallDelta] [userMsg] [] with
      | .error p => .error p
      | .ok (h2, acc2) => processStream_v0 [assistantDelta] h2 acc2) ∧
    (run_turn_v0 [weatherCallDelta] [amsterdamReply] [] amsterdamUserInput).replyContext =
      some [⟨"user", amsterdamUserInput, none⟩,
        ⟨"function", amsterdamResultContent, some "get_current_weather"⟩] ∧
    followUpAfterDrain
      (reply_function_call_events [assistantDelta, weatherCallDelta]) = true :=
  ⟨followup_after_drain_amended.1 [weatherCallDelta] [assistantDelta] [userMsg] [],
    followup_after_drain_amended.2.1 [weatherCallDelta] [amsterdamReply] []
      amsterdamUserInput
      [⟨"user", amsterdamUserInput, none⟩,
        ⟨"function", amsterdamResultContent, some "get_current_weather"⟩]
      [resultDelta] resultDelta rfl rfl rfl,
    followup_after_drain_amended.2.2 [assistantDelta, weatherCallDelta]
      (fun d hd => by
        have : d = assistantDelta := List.mem_singleton.mp hd
        rw [this]
        decide)⟩

/-- C9 counterexample: in the Amsterdam weather turn the final store holds 3
entries for the turn (user, one function message, assistant), not the 4 the
claim states — the function-call and function-result never form two separate
entries: the plain notebook stores only the result, the error-handling
notebook merges the result into the raw-arguments message. -/
theorem weather_scenario_counterexample :
    (run_turn_v0 [weatherCallDelta] [amsterdamReply] []
      amsterdamUserInput).store.length = 3 ∧
    (run_turn_v1 [weatherCallDelta] [] [amsterdamReply] []
      amsterdamUserInput).store.length = 3 ∧
    (3 : Nat) ≠ 4 :=
  ⟨rfl, rfl, by decide⟩

/-- C9 (amended).  Amsterdam weather turn: the dispatcher maps the
function-call delta to a result delta whose content is the JSON serialization
of the weather dictionary, one follow-up model call yields the assistant
reply, and the final store holds exactly 3 entries for the turn: the user
message, one function message (the serialized result in the plain notebook;
the raw arguments concatenated with the result in the error-handling
notebook), and the assistant message. -/
theorem weather_scenario_amended :
    maybe_dispatch weatherCallDelta = .ok resultDelta ∧
    resultDelta.content =
      "\x7b\"location\": \"Amsterdam\", \"forecast\": \"sunny\", \"temperature\": \"25 C\"\x7d" ∧
    run_turn_v0 [weatherCallDelta] [amsterdamReply] [] amsterdamUserInput =
      ⟨[amsterdamReply],
        [⟨"user", amsterdamUserInput, none⟩,
          ⟨"function", amsterdamResultContent, some "get_current_weather"⟩,
          ⟨"assistant", amsterdamReply.content, none⟩],
        1,
        some [⟨"user", amsterdamUserInput, none⟩,
          ⟨"function", amsterdamResultContent, some "get_current_weather"⟩],
        none, none⟩ ∧
    run_turn_v1 [weatherCallDelta] [] [amsterdamReply] [] amsterdamUserInput =
      ⟨[amsterdamReply],
        [⟨"user", amsterdamUserInput, none⟩,
          ⟨"function", amsterdamArgs ++ amsterdamResultContent,
            some "get_current_weather"⟩,
          ⟨"assistant", amsterdamReply.content, none⟩],
        1,
        some [⟨"user", amsterdamUserInput, none⟩,
          ⟨"function", amsterdamArgs ++ amsterdamResultContent,
            some "get_current_weather"⟩],
        none, none⟩ :=
  ⟨rfl, rfl, rfl, rfl⟩

/-- C5.  Error-recovery policy of the error-handling notebook: when a raised
error is attributed to the weather-function dispatch (the code's criterion:
its stringified form contains `get_current_weather`), recovery appends
exactly one user-role message carrying the stringified error, issues exactly
one follow-up model call whose context is that updated store, and yields the
recovery call's chunks; when the error is not so attributed, it is re-raised
to the turn's caller unchanged and no synthetic message is appended. -/
theorem error_recovery_policy
    (firstStream errorStream replyStream : List OpenAIChatDelta)
    (history : MemoryStore) (userInput : String) (e : String)
    (h2 : MemoryStore) (les : OpenAIChatDelta)
    (hproc : processStream_v1 firstStream
      (save_message_to_memory ⟨"user", userInput, none⟩ history) [] =
        .error (e, h2))
    (hes : errorStream.getLast? = some les)
    (hrole : les.role ≠ some "function") :
    (strContains e "get_current_weather" = true →
      ∃ h4, foldDeltas errorStream (h2 ++ [⟨"user", e, none⟩]) = some h4 ∧
        run_turn_v1 firstStream errorStream replyStream history userInput =
          ⟨errorStream, h4, 1, none, some (h2 ++ [⟨"user", e, none⟩]), none⟩) ∧
    (strContains e "get_current_weather" = false →
      run_turn_v1 firstStream errorStream replyStream history userInput =
        ⟨[], h2, 0, none, none, some e⟩) := by
  constructor
  · intro htrue
    have hh : error_handler e h2 = .recovered (h2 ++ [⟨"user", e, none⟩]) := by
      unfold error_handler
      rw [htrue]
      simp [save_message_to_memory]
    have hne : (h2 ++ [(⟨"user", e, none⟩ : OpenAIChatMessage)]) ≠ [] := by simp
    have hsome := foldDeltas_nonempty errorStream _ hne
    match hfold : foldDeltas errorStream (h2 ++ [⟨"user", e, none⟩]) with
    | none => rw [hfold] at hsome; exact absurd hsome (by simp)
    | some h4 =>
      refine ⟨h4, hfold, ?_⟩
      have hrun : run_turn_v1 firstStream errorStream replyStream history userInput =
          finish_turn errorStream h4 replyStream 1 (some (h2 ++ [⟨"user", e, none⟩])) := by
        simp only [run_turn_v1, hproc, hh, hfold]
      rw [hrun]
      exact finish_turn_other errorStream h4 replyStream 1
        (some (h2 ++ [⟨"user", e, none⟩])) les hes hrole
  · intro hfalse
    have hh : error_handler e h2 = .reraised e := by
      unfold error_handler
      rw [hfalse]
      simp
    simp only [run_turn_v1, hproc, hh]

/-- Witness for C5: the empty-arguments binding error is recovered with one
synthetic user message and one follow-up call; an error whose text lacks the
function name (the JSON decode error) is re-raised with the store untouched
by the handler. -/
theorem error_recovery_policy_witness :
    (∃ h4, foldDeltas [clarifyDelta]
        ([⟨"user", "it is hot today?", none⟩,
          ⟨"function", "\x7b\x7d", some "get_current_weather"⟩] ++
          [⟨"user", missing_location_error, none⟩]) = some h4 ∧
      run_turn_v1 [emptyArgsCall] [clarifyDelta] [] [] "it is hot today?" =
        ⟨[clarifyDelta], h4, 1, none,
          some ([⟨"user", "it is hot today?", none⟩,
            ⟨"function", "\x7b\x7d", some "get_current_weather"⟩] ++
            [⟨"user", missing_location_error, none⟩]), none⟩) ∧
    run_turn_v1 [badJsonCall] [clarifyDelta] [] [] "hi there" =
      ⟨[], [⟨"user", "hi there", none⟩,
        ⟨"function", "not json", some "get_current_weather"⟩],
        0, none, none, some json_decode_error_message⟩ :=
  ⟨(error_recovery_policy [emptyArgsCall] [clarifyDelta] [] [] "it is hot today?"
      missing_location_error
      [⟨"user", "it is hot today?", none⟩,
        ⟨"function", "\x7b\x7d", some "get_current_weather"⟩]
      clarifyDelta rfl rfl (by decide)).1 rfl,
    (error_recovery_policy [badJsonCall] [clarifyDelta] [] [] "hi there"
      json_decode_error_message
      [⟨"user", "hi there", none⟩,
        ⟨"function", "not json", some "get_current_weather"⟩]
      clarifyDelta rfl rfl (by decide)).2 rfl⟩

/-- C6 counterexample: a dispatch attempt on a function-role delta whose
content is not valid JSON raises the decode error, which `error_handler`
re-raises to the turn's caller — no synthetic user message and no follow-up
call — because the stringified `JSONDecodeError` does not contain
`get_current_weather`; serialization errors are therefore not handled like
binding errors. -/
theorem serialization_error_counterexample :
    (run_turn_v1 [badJsonCall] [clarifyDelta] [] [] "hi").raised =
      some json_decode_error_message ∧
    (run_turn_v1 [badJsonCall] [clarifyDelta] [] [] "hi").followUpCalls = 0 ∧
    (run_turn_v1 [badJsonCall] [clarifyDelta] [] [] "hi").recoveryContext = none ∧
    json_loads_object "not json" = .error json_decode_error_message :=
  ⟨rfl, rfl, rfl, rfl⟩

/-- C6 (amended).  An error is recovered exactly when its stringified form
contains the registered function's name: binding errors (Python `TypeError`s
naming `get_current_weather`) are recovered, while the stringified JSON
decode error carries positions only and lacks the name, so a dispatch on
invalid JSON propagates the error to the turn's caller instead of producing
a synthetic user message and follow-up call. -/
theorem serialization_error_amended :
    strContains json_decode_error_message "get_current_weather" = false ∧
    (∀ h : MemoryStore, error_handler json_decode_error_message h =
      .reraised json_decode_error_message) ∧
    strContains missing_location_error "get_current_weather" = true ∧
    (∀ h : MemoryStore, error_handler missing_location_error h =
      .recovered (h ++ [⟨"user", missing_location_error, none⟩])) := by
  refine ⟨rfl, fun h => ?_, rfl, fun h => ?_⟩
  · unfold error_handler
    rw [show strContains json_decode_error_message "get_current_weather" = false
      from rfl]
    simp
  · unfold error_handler
    rw [show strContains missing_location_error "get_current_weather" = true
      from rfl]
    simp [save_message_to_memory]
